import Mathlib

/-!
Verification of the TokenizeRWATemplate repository core components against
its natural-language specification.

Shallow embedding conventions:
- JavaScript strings are Lean `String` (character lists where structural
  reasoning is needed, see the amount-formatting section).
- Nullable values are `Option`.
- Code that can throw is `Except String`.
- The upstream pinning service and the JSON parser are parameters
  (they are external collaborators of the relay).
-/

namespace RWA

/-! ## String primitives

JS string operations are modelled on the character list underlying a
Lean string (String.data), so every definition reduces by computation. -/

/-- Both-ends whitespace trim on a character list (JS String.prototype.trim). -/
def trimL (l : List Char) : List Char :=
  ((l.dropWhile Char.isWhitespace).reverse.dropWhile Char.isWhitespace).reverse

/-- JS trim on strings. -/
def jsTrim (s : String) : String := String.mk (trimL s.data)

/-- Is the first list a prefix of the second (character-wise)? -/
def isPrefixL : List Char → List Char → Bool
  | [], _ => true
  | _ :: _, [] => false
  | a :: as, b :: bs => a = b && isPrefixL as bs

/-- Does the list end with the given suffix (JS String.prototype.endsWith)? -/
def endsWithL (l suffix : List Char) : Bool := isPrefixL suffix.reverse l.reverse

/-- Split at the first occurrence of a (non-empty) separator: the parts
before and after it, or none when the separator does not occur. -/
def splitFirstOn (sep : List Char) : List Char → Option (List Char × List Char)
  | [] => none
  | c :: rest =>
    if isPrefixL sep (c :: rest) then some ([], (c :: rest).drop sep.length)
    else
      match splitFirstOn sep rest with
      | some (pre, post) => some (c :: pre, post)
      | none => none

/-! ## Wallet adapter data model (frontend, useUnifiedWallet / createWeb3AuthSigner) -/

/-- Runtime shape of the secret key held by a Web3Auth-derived account.
The TypeScript code defends against three runtime cases: a genuine byte
array (Uint8Array), a plain numeric array (coerced via Uint8Array.from,
which reduces each entry mod 256), and anything else (rejected). -/
inductive KeyMaterial where
  | bytes (data : List Nat)
  | numArray (data : List Nat)
  | other
deriving Repr

/-- Account derived from the Web3Auth social login (algorandAdapter shape
as consumed by createWeb3AuthSigner). -/
structure AlgorandAccountFromWeb3Auth where
  address : String
  secretKey : KeyMaterial

/-- Transaction signer capability. Either the algosdk basic-account signer
built from an address and a coerced secret key, or an opaque signer supplied
by the browser-wallet provider (use-wallet transactionSigner). -/
inductive Signer where
  | basicAccount (addr : String) (sk : List Nat)
  | walletProvided (id : Nat)

/-- Uint8Array coercion performed by createWeb3AuthSigner: a Uint8Array is
kept as-is, an Array of numbers goes through Uint8Array.from (each entry
taken mod 256), anything else is rejected. -/
def coerceSecretKey : KeyMaterial → Option (List Nat)
  | .bytes d => some d
  | .numArray d => some (d.map (fun x => x % 256))
  | .other => none

/-- createWeb3AuthSigner (web3authIntegration.ts, lines 34-56): builds the
algosdk basic-account signer from the account; throws when the secret key
is neither a byte sequence nor a numeric array. The throw happens inside
this function call itself (the coercion is an eagerly evaluated ternary). -/
def createWeb3AuthSigner (account : AlgorandAccountFromWeb3Auth) : Except String Signer :=
  match coerceSecretKey account.secretKey with
  | some sk => .ok (.basicAccount account.address sk)
  | none => .error "Web3Auth secretKey is not a Uint8Array (or number[]). Cannot sign transactions."

/-- Social-login provider state observed by the adapter
(Web3AuthProvider context fields read by useUnifiedWallet). -/
structure Web3AuthState where
  isConnected : Bool
  algorandAccount : Option AlgorandAccountFromWeb3Auth
  isLoading : Bool
  error : Option String

/-- Browser-wallet provider state observed by the adapter (use-wallet).
The adapter reads activeAddress and transactionSigner; the provider also
carries its own status fields, included here so that statements about
passing them through can be expressed. -/
structure TraditionalWalletState where
  activeAddress : Option String
  transactionSigner : Signer
  isLoading : Bool
  error : Option String

/-- walletType values of the unified state: the strings web3auth and
traditional, or null. -/
inductive WalletType where
  | web3auth
  | traditional
  | noWallet
deriving Repr, DecidableEq

/-- Resolved unified wallet state (UnifiedWalletState fields relevant to
the claims; the verbatim passthrough sub-objects are omitted). -/
structure UnifiedWalletState where
  activeAddress : Option String
  signer : Option Signer
  walletType : WalletType
  isConnected : Bool
  isLoading : Bool
  error : Option String

/-- The no-wallet result of the resolver (branch 3 of the useMemo body):
nulls everywhere, with the social-login state isLoading and error
passed through. -/
def resolveNone (w : Web3AuthState) : UnifiedWalletState :=
  { activeAddress := none
    signer := none
    walletType := .noWallet
    isConnected := false
    isLoading := w.isLoading
    error := w.error }

/-- Branches 2 and 3 of the resolver. The source guard is the JS
truthiness test on traditional.activeAddress, so the empty string is
treated like null and falls through to the no-wallet result. -/
def resolveTraditionalOrNone (w : Web3AuthState) (t : TraditionalWalletState) :
    Except String UnifiedWalletState :=
  match t.activeAddress with
  | some a =>
    if a = "" then .ok (resolveNone w)
    else .ok
      { activeAddress := some a
        signer := some t.transactionSigner
        walletType := .traditional
        isConnected := true
        isLoading := false
        error := none }
  | none => .ok (resolveNone w)

/-- useUnifiedWallet (frontend hook, useMemo body): three-branch
precedence resolver over the two provider states. Branch 1 (social login
connected with a derived account) constructs the Web3Auth signer eagerly,
so a key-coercion failure propagates out of resolution itself; this is
modelled by the Except result. -/
def useUnifiedWallet (w : Web3AuthState) (t : TraditionalWalletState) :
    Except String UnifiedWalletState :=
  if w.isConnected then
    match w.algorandAccount with
    | some acc =>
      (createWeb3AuthSigner acc).map (fun s =>
        { activeAddress := some acc.address
          signer := some s
          walletType := .web3auth
          isConnected := true
          isLoading := w.isLoading
          error := w.error })
    | none => resolveTraditionalOrNone w t
  else resolveTraditionalOrNone w t

/-! ### Claim-side resolver for C1 (modelled from the claim wording,
amended where the source diverges) -/

/-- Triple of observables the C1 claim talks about. -/
structure ResolvedTriple where
  address : Option String
  signer : Option Signer
  source : WalletType

/-- The no-wallet triple of the claim: address null, signer null, source NONE. -/
def noneTriple : ResolvedTriple :=
  { address := none, signer := none, source := .noWallet }

/-- Claim-side branches 2 and 3 (amended: the browser-wallet branch
requires the active address to be non-null and non-empty, matching the
source truthiness test). -/
def tradTriple (t : TraditionalWalletState) : ResolvedTriple :=
  match t.activeAddress with
  | some a =>
    if a = "" then noneTriple
    else { address := some a, signer := some t.transactionSigner, source := .traditional }
  | none => noneTriple

/-- Claim-side resolver: if the social-login state is connected and has a
derived account, that account address with source SOCIAL and the
adapter-wrapped signer; else the browser-wallet branch; else the
no-wallet triple. -/
def claimResolver (w : Web3AuthState) (t : TraditionalWalletState) : ResolvedTriple :=
  if w.isConnected then
    match w.algorandAccount with
    | some acc =>
      { address := some acc.address
        signer := (createWeb3AuthSigner acc).toOption
        source := .web3auth }
    | none => tradTriple t
  else tradTriple t

/-- Key material of the social account (when the social branch would be
taken) is coercible, so signer construction succeeds. -/
def SocialKeyOk (w : Web3AuthState) : Prop :=
  w.isConnected = true →
    ∀ acc, w.algorandAccount = some acc → (coerceSecretKey acc.secretKey).isSome = true

/-! ### Concrete provider states used as counterexample and witness inputs -/

/-- Social-login provider fully disconnected. -/
def wOff : Web3AuthState :=
  { isConnected := false, algorandAccount := none, isLoading := false, error := none }

/-- Browser-wallet state whose active address is the empty string (non-null
but JS-falsy). -/
def tEmptyAddr : TraditionalWalletState :=
  { activeAddress := some "", transactionSigner := .walletProvided 0
    isLoading := false, error := none }

/-- Social-login state connected with an account whose key material is
neither a byte sequence nor a numeric array. -/
def wBadKey : Web3AuthState :=
  { isConnected := true
    algorandAccount := some { address := "WBADADDR", secretKey := .other }
    isLoading := false, error := none }

/-- Browser wallet with nothing connected. -/
def tIdle : TraditionalWalletState :=
  { activeAddress := none, transactionSigner := .walletProvided 1
    isLoading := false, error := none }

/-- Social-login provider idle (not connected, no status to report). -/
def wIdle : Web3AuthState :=
  { isConnected := false, algorandAccount := none, isLoading := false, error := none }

/-- Browser wallet connected with an address while its own status fields
report loading and an error string. -/
def tBusy : TraditionalWalletState :=
  { activeAddress := some "TRADADDR", transactionSigner := .walletProvided 2
    isLoading := true, error := some "wallet connect failed" }

/-- Social-login state connected with an account holding a genuine byte
sequence secret key. -/
def wGood : Web3AuthState :=
  { isConnected := true
    algorandAccount := some { address := "SOCIALADDR", secretKey := .bytes [1, 2, 3] }
    isLoading := true, error := none }

/-- The resolver result for wGood and an idle browser wallet. -/
def rGood : UnifiedWalletState :=
  { activeAddress := some "SOCIALADDR"
    signer := some (.basicAccount "SOCIALADDR" [1, 2, 3])
    walletType := .web3auth
    isConnected := true
    isLoading := true
    error := none }

/-! ### Branch equations for the resolver -/

theorem resolve_social_eq (w : Web3AuthState) (t : TraditionalWalletState)
    (acc : AlgorandAccountFromWeb3Auth) (sk : List Nat)
    (hc : w.isConnected = true) (hacc : w.algorandAccount = some acc)
    (hco : coerceSecretKey acc.secretKey = some sk) :
    useUnifiedWallet w t = Except.ok
      { activeAddress := some acc.address
        signer := some (.basicAccount acc.address sk)
        walletType := .web3auth
        isConnected := true
        isLoading := w.isLoading
        error := w.error } := by
  simp [useUnifiedWallet, createWeb3AuthSigner, hc, hacc, hco, Except.map]

theorem resolve_social_error_eq (w : Web3AuthState) (t : TraditionalWalletState)
    (acc : AlgorandAccountFromWeb3Auth)
    (hc : w.isConnected = true) (hacc : w.algorandAccount = some acc)
    (hco : coerceSecretKey acc.secretKey = none) :
    useUnifiedWallet w t =
      Except.error "Web3Auth secretKey is not a Uint8Array (or number[]). Cannot sign transactions." := by
  simp [useUnifiedWallet, createWeb3AuthSigner, hc, hacc, hco, Except.map]

theorem resolve_not_social_eq (w : Web3AuthState) (t : TraditionalWalletState)
    (hsoc : w.isConnected = false ∨ w.algorandAccount = none) :
    useUnifiedWallet w t = resolveTraditionalOrNone w t := by
  rcases hsoc with h | h
  · simp [useUnifiedWallet, h]
  · by_cases hc : w.isConnected
    · simp [useUnifiedWallet, hc, h]
    · simp [useUnifiedWallet, hc]

theorem rtn_some_eq (w : Web3AuthState) (t : TraditionalWalletState) (a : String)
    (hta : t.activeAddress = some a) (ha : ¬ a = "") :
    resolveTraditionalOrNone w t = Except.ok
      { activeAddress := some a
        signer := some t.transactionSigner
        walletType := .traditional
        isConnected := true
        isLoading := false
        error := none } := by
  simp [resolveTraditionalOrNone, hta, ha]

theorem rtn_empty_eq (w : Web3AuthState) (t : TraditionalWalletState)
    (hta : t.activeAddress = some "") :
    resolveTraditionalOrNone w t = Except.ok (resolveNone w) := by
  simp [resolveTraditionalOrNone, hta]

theorem rtn_none_eq (w : Web3AuthState) (t : TraditionalWalletState)
    (hta : t.activeAddress = none) :
    resolveTraditionalOrNone w t = Except.ok (resolveNone w) := by
  simp [resolveTraditionalOrNone, hta]

/-! ### C1 -/

/-- Claim C1, counterexample: the claim says that whenever the social
branch is not taken and the browser-wallet state has a non-null active
address, resolve() returns that address with source TRADITIONAL. The
source guard is the JS truthiness test, so the non-null empty-string
address instead falls through to the no-wallet result. -/
theorem useUnifiedWallet_nonnull_address_cex :
    ¬ (∀ (w : Web3AuthState) (t : TraditionalWalletState) (r : UnifiedWalletState),
        useUnifiedWallet w t = Except.ok r → w.isConnected = false →
        ∀ a, t.activeAddress = some a →
          r.activeAddress = some a ∧ r.walletType = WalletType.traditional) := by
  intro h
  have hres : useUnifiedWallet wOff tEmptyAddr = Except.ok (resolveNone wOff) := rfl
  have := h wOff tEmptyAddr (resolveNone wOff) hres rfl "" rfl
  simp [resolveNone] at this

/-- Claim C1, amended: resolve() is the three-branch precedence function,
with the browser-wallet branch guarded by a non-null AND non-empty active
address (JS truthiness), and the social branch returning the account
address, the adapter-wrapped signer and source SOCIAL provided the key
material is coercible (otherwise resolution fails, see C5). The result
always carries exactly one source, so the two providers are never
simultaneously active in it. -/
theorem useUnifiedWallet_precedence (w : Web3AuthState) (t : TraditionalWalletState)
    (hk : SocialKeyOk w) :
    ∃ r, useUnifiedWallet w t = Except.ok r ∧
      r.activeAddress = (claimResolver w t).address ∧
      r.signer = (claimResolver w t).signer ∧
      r.walletType = (claimResolver w t).source := by
  have htrad : (w.isConnected = false ∨ w.algorandAccount = none) →
      claimResolver w t = tradTriple t := by
    rintro (h | h)
    · simp [claimResolver, h]
    · by_cases hc : w.isConnected
      · simp [claimResolver, hc, h]
      · simp [claimResolver, hc]
  by_cases hc : w.isConnected
  · cases hacc : w.algorandAccount with
    | some acc =>
      have hsk := hk hc acc hacc
      cases hco : coerceSecretKey acc.secretKey with
      | some sk =>
        refine ⟨_, resolve_social_eq w t acc sk hc hacc hco, ?_, ?_, ?_⟩ <;>
          simp [claimResolver, createWeb3AuthSigner, hc, hacc, hco, Except.toOption]
      | none => simp [hco] at hsk
    | none =>
      have hE := resolve_not_social_eq w t (Or.inr hacc)
      have hT : claimResolver w t = tradTriple t := htrad (Or.inr hacc)
      rw [hE, hT]
      cases hta : t.activeAddress with
      | some a =>
        by_cases ha : a = ""
        · subst ha
          exact ⟨_, rtn_empty_eq w t hta, by simp [tradTriple, hta, resolveNone, noneTriple]⟩
        · exact ⟨_, rtn_some_eq w t a hta ha, by simp [tradTriple, hta, ha]⟩
      | none =>
        exact ⟨_, rtn_none_eq w t hta, by simp [tradTriple, hta, resolveNone, noneTriple]⟩
  · have hcf : w.isConnected = false := by simpa using hc
    have hE := resolve_not_social_eq w t (Or.inl hcf)
    have hT : claimResolver w t = tradTriple t := htrad (Or.inl hcf)
    rw [hE, hT]
    cases hta : t.activeAddress with
    | some a =>
      by_cases ha : a = ""
      · subst ha
        exact ⟨_, rtn_empty_eq w t hta, by simp [tradTriple, hta, resolveNone, noneTriple]⟩
      · exact ⟨_, rtn_some_eq w t a hta ha, by simp [tradTriple, hta, ha]⟩
    | none =>
      exact ⟨_, rtn_none_eq w t hta, by simp [tradTriple, hta, resolveNone, noneTriple]⟩

/-- Witness for the amended C1 theorem at concrete states: social login
connected with a byte-sequence key and browser wallet simultaneously
connected; the social address wins. -/
theorem useUnifiedWallet_precedence_witness :
    ∃ r, useUnifiedWallet wGood tBusy = Except.ok r ∧
      r.activeAddress = (claimResolver wGood tBusy).address ∧
      r.signer = (claimResolver wGood tBusy).signer ∧
      r.walletType = (claimResolver wGood tBusy).source :=
  useUnifiedWallet_precedence wGood tBusy (by intro _ acc hacc; simp [wGood] at hacc; subst hacc; rfl)

/-! ### C5 -/

/-- Claim C5, counterexample: the claim says the adapter itself never
throws during resolution and that invalid key material surfaces only when
a transaction is signed. The source constructs the Web3Auth signer
eagerly inside the resolver useMemo, and createWeb3AuthSigner throws
immediately for key material that is neither a byte sequence nor a
numeric array, so resolution itself fails. -/
theorem useUnifiedWallet_resolution_throws_cex :
    ¬ (∀ (w : Web3AuthState) (t : TraditionalWalletState),
        ∃ r, useUnifiedWallet w t = Except.ok r) := by
  intro h
  obtain ⟨r, hr⟩ := h wBadKey tIdle
  have hbad : useUnifiedWallet wBadKey tIdle =
      Except.error "Web3Auth secretKey is not a Uint8Array (or number[]). Cannot sign transactions." := rfl
  rw [hbad] at hr
  exact Except.noConfusion hr

/-- Claim C5, amended: resolution fails exactly when the social branch is
selected (social login connected with a derived account) and that account
key material is neither a byte sequence nor a numeric array; the failure
surfaces at resolution time, when the signer is constructed, not at
signing time. With coercible key material the adapter never throws during
resolution. -/
theorem useUnifiedWallet_error_iff (w : Web3AuthState) (t : TraditionalWalletState) :
    (∃ e, useUnifiedWallet w t = Except.error e) ↔
      (w.isConnected = true ∧
        ∃ acc, w.algorandAccount = some acc ∧ coerceSecretKey acc.secretKey = none) := by
  constructor
  · rintro ⟨e, he⟩
    by_cases hc : w.isConnected
    · cases hacc : w.algorandAccount with
      | some acc =>
        cases hco : coerceSecretKey acc.secretKey with
        | some sk =>
          rw [resolve_social_eq w t acc sk hc hacc hco] at he
          exact Except.noConfusion he
        | none => exact ⟨hc, acc, hacc ▸ rfl, hco⟩
      | none =>
        rw [resolve_not_social_eq w t (Or.inr hacc)] at he
        cases hta : t.activeAddress with
        | some a =>
          by_cases ha : a = ""
          · subst ha; rw [rtn_empty_eq w t hta] at he; exact Except.noConfusion he
          · rw [rtn_some_eq w t a hta ha] at he; exact Except.noConfusion he
        | none => rw [rtn_none_eq w t hta] at he; exact Except.noConfusion he
    · have hcf : w.isConnected = false := by simpa using hc
      rw [resolve_not_social_eq w t (Or.inl hcf)] at he
      cases hta : t.activeAddress with
      | some a =>
        by_cases ha : a = ""
        · subst ha; rw [rtn_empty_eq w t hta] at he; exact Except.noConfusion he
        · rw [rtn_some_eq w t a hta ha] at he; exact Except.noConfusion he
      | none => rw [rtn_none_eq w t hta] at he; exact Except.noConfusion he
  · rintro ⟨hc, acc, hacc, hco⟩
    exact ⟨_, resolve_social_error_eq w t acc hc hacc hco⟩

/-! ### C6 -/

/-- Claim C6, counterexample: the claim says that when the TRADITIONAL
branch is taken, the resolved isLoading and error fields are passed
through from the browser-wallet state. The source hardcodes isLoading
false and error null in that branch, so a browser-wallet state reporting
loading and an error is not reflected. -/
theorem useUnifiedWallet_passthrough_cex :
    ¬ (∀ (w : Web3AuthState) (t : TraditionalWalletState) (r : UnifiedWalletState),
        useUnifiedWallet w t = Except.ok r → r.walletType = WalletType.traditional →
          r.isLoading = t.isLoading ∧ r.error = t.error) := by
  intro h
  have hres : useUnifiedWallet wIdle tBusy = Except.ok
      { activeAddress := some "TRADADDR"
        signer := some (.walletProvided 2)
        walletType := .traditional
        isConnected := true
        isLoading := false
        error := none } := rfl
  have := h wIdle tBusy _ hres rfl
  simp [tBusy] at this

/-- Claim C6, amended: the resolved isLoading and error fields come from
the social-login state when the SOCIAL branch is taken, are the constants
false and null when the TRADITIONAL branch is taken (the source does not
read any browser-wallet status fields there), and come from the
social-login state by default when no account is active. -/
theorem useUnifiedWallet_passthrough (w : Web3AuthState) (t : TraditionalWalletState)
    (r : UnifiedWalletState) (h : useUnifiedWallet w t = Except.ok r) :
    (r.walletType = WalletType.web3auth → r.isLoading = w.isLoading ∧ r.error = w.error) ∧
    (r.walletType = WalletType.traditional → r.isLoading = false ∧ r.error = none) ∧
    (r.walletType = WalletType.noWallet → r.isLoading = w.isLoading ∧ r.error = w.error) := by
  have hrtn : resolveTraditionalOrNone w t = Except.ok r →
      (r.walletType = WalletType.web3auth → r.isLoading = w.isLoading ∧ r.error = w.error) ∧
      (r.walletType = WalletType.traditional → r.isLoading = false ∧ r.error = none) ∧
      (r.walletType = WalletType.noWallet → r.isLoading = w.isLoading ∧ r.error = w.error) := by
    intro hok
    cases hta : t.activeAddress with
    | some a =>
      by_cases ha : a = ""
      · subst ha
        rw [rtn_empty_eq w t hta] at hok
        injection hok with hok
        subst hok
        simp [resolveNone]
      · rw [rtn_some_eq w t a hta ha] at hok
        injection hok with hok
        subst hok
        simp
    | none =>
      rw [rtn_none_eq w t hta] at hok
      injection hok with hok
      subst hok
      simp [resolveNone]
  by_cases hc : w.isConnected
  · cases hacc : w.algorandAccount with
    | some acc =>
      cases hco : coerceSecretKey acc.secretKey with
      | some sk =>
        rw [resolve_social_eq w t acc sk hc hacc hco] at h
        injection h with h
        subst h
        simp
      | none =>
        rw [resolve_social_error_eq w t acc hc hacc hco] at h
        exact Except.noConfusion h
    | none =>
      rw [resolve_not_social_eq w t (Or.inr hacc)] at h
      exact hrtn h
  · have hcf : w.isConnected = false := by simpa using hc
    rw [resolve_not_social_eq w t (Or.inl hcf)] at h
    exact hrtn h

/-- Witness for the amended C6 theorem at concrete states: social login
connected with an idle browser wallet resolves to rGood, whose fields
come from the social state. -/
theorem useUnifiedWallet_passthrough_witness :
    (rGood.walletType = WalletType.web3auth →
      rGood.isLoading = wGood.isLoading ∧ rGood.error = wGood.error) ∧
    (rGood.walletType = WalletType.traditional →
      rGood.isLoading = false ∧ rGood.error = none) ∧
    (rGood.walletType = WalletType.noWallet →
      rGood.isLoading = wGood.isLoading ∧ rGood.error = wGood.error) :=
  useUnifiedWallet_passthrough wGood tIdle rGood rfl

/-! ## Asset pinning relay (server.js, both variants: the pin-image
handler logic is identical in part_000 and part_001) -/

/-- Uploaded multipart file as produced by multer memory storage. -/
structure UploadedFile where
  buffer : List Nat
  originalname : Option String

/-- Incoming pin-image request: the optional file plus the optional
multipart text fields. Multipart text fields are strings when present;
an absent field is none (the typeof string guard in the source maps the
non-string case here). -/
structure PinImageRequest where
  file : Option UploadedFile
  metaName : Option String
  metaDescription : Option String
  properties : Option String

/-- JSON values (result of JSON.parse and the properties field of the
metadata document). -/
inductive Json where
  | null
  | jbool (b : Bool)
  | jnum (n : Int)
  | jstr (s : String)
  | jarr (xs : List Json)
  | jobj (kvs : List (String × Json))

/-- Metadata document pinned in step 2 of the handler. -/
structure NftMetadata where
  name : String
  description : String
  image : String
  properties : Json

/-- Response body of the pin-image endpoint: either the error object or
the metadataUrl object. -/
inductive ApiBody where
  | errorBody (msg : String)
  | metadataUrlBody (metadataUrl : String)

/-- HTTP response produced by the pin-image handler. -/
structure ApiResponse where
  status : Nat
  body : ApiBody

/-- Calls the handler can make against the pinning service. The unpin
constructor exists so that the absence of any rollback call is a
statement about the call log, not a vacuity; the handler never emits it. -/
inductive PinCall where
  | pinFile (buffer : List Nat) (pinataName : String)
  | pinJSON (doc : NftMetadata) (pinataName : String)
  | unpin (hash : String)

/-- The external pinning service (Pinata client): each upstream call
either returns an IPFS hash or fails with an error message. -/
structure PinService where
  pinFileToIPFS : List Nat → String → Except String String
  pinJSONToIPFS : NftMetadata → String → Except String String

/-- safeTrim: trims a string, returns the empty string for a non-string
(absent) value. -/
def safeTrim : Option String → String
  | some s => jsTrim s
  | none => ""

/-- safeJsonParse: the fallback for a non-string or blank value, the
parsed JSON otherwise, with any parse failure swallowed into the
fallback. The JSON parser itself is an external collaborator, passed in
as a function returning none on failure. -/
def safeJsonParse (jsonParse : String → Option Json) (v : Option String) (fallback : Json) : Json :=
  match v with
  | none => fallback
  | some s => if jsTrim s = "" then fallback else (jsonParse s).getD fallback

/-- JS falsy-or on strings: the empty string falls back to the default. -/
def jsOr (s d : String) : String := if s = "" then d else s

/-- JS falsy-or on a nullable string. -/
def jsOrOpt (v : Option String) (d : String) : String :=
  match v with
  | some s => jsOr s d
  | none => d

/-- metaName as computed by the handler: safeTrim of the field, with the
fixed default when empty. -/
def metaNameOf (req : PinImageRequest) : String :=
  jsOr (safeTrim req.metaName) "NFT Example"

/-- metaDescription as computed by the handler. -/
def metaDescriptionOf (req : PinImageRequest) : String :=
  jsOr (safeTrim req.metaDescription) "This is an unchangeable NFT"

/-- properties as computed by the handler: lenient parse with the empty
object as fallback. -/
def propertiesOf (jsonParse : String → Option Json) (req : PinImageRequest) : Json :=
  safeJsonParse jsonParse req.properties (Json.jobj [])

/-- pinataMetadata name used for the image pin: the original filename,
or a name derived from metaName. -/
def imagePinName (req : PinImageRequest) (f : UploadedFile) : String :=
  jsOrOpt f.originalname (metaNameOf req ++ " Image")

/-- pinataMetadata name used for the metadata pin. -/
def jsonPinName (req : PinImageRequest) : String :=
  metaNameOf req ++ " Metadata"

/-- Metadata document built between the two pins. -/
def mkMetadata (jsonParse : String → Option Json) (req : PinImageRequest)
    (imageHash : String) : NftMetadata :=
  { name := metaNameOf req
    description := metaDescriptionOf req
    image := "ipfs://" ++ imageHash
    properties := propertiesOf jsonParse req }

/-- Best-effort error message extraction of the catch block: the
upstream-reported message when there is one, the fixed fallback
otherwise. -/
def errorMessageOf (e : String) : String := jsOr e "Failed to pin to IPFS."

/-- The two sequential upstream pins of the handler body, once a file is
present: pin the image bytes; on success build the metadata document for
the obtained hash and pin it; any upstream failure ends the request with
a 500 and no further upstream call. -/
def pinImageUpload (svc : PinService) (file : UploadedFile) (imageName : String)
    (mkDoc : String → NftMetadata) (jsonName : String) : ApiResponse × List PinCall :=
  match svc.pinFileToIPFS file.buffer imageName with
  | .error e =>
    ({ status := 500, body := .errorBody (errorMessageOf e) },
      [.pinFile file.buffer imageName])
  | .ok imageHash =>
    let metadata := mkDoc imageHash
    match svc.pinJSONToIPFS metadata jsonName with
    | .error e =>
      ({ status := 500, body := .errorBody (errorMessageOf e) },
        [.pinFile file.buffer imageName, .pinJSON metadata jsonName])
    | .ok jsonHash =>
      ({ status := 200, body := .metadataUrlBody ("ipfs://" ++ jsonHash) },
        [.pinFile file.buffer imageName, .pinJSON metadata jsonName])

/-- POST /api/pin-image handler. Returns the HTTP response together with
the ordered log of upstream pinning-service calls made while handling
the request. -/
def pinImageHandler (jsonParse : String → Option Json) (svc : PinService)
    (req : PinImageRequest) : ApiResponse × List PinCall :=
  match req.file with
  | none => ({ status := 400, body := .errorBody "No file uploaded" }, [])
  | some file =>
    pinImageUpload svc file (imagePinName req file) (mkMetadata jsonParse req) (jsonPinName req)

/-! ### Concrete relay inputs for witnesses -/

/-- A JSON parser that fails on every input (used only to instantiate
witnesses at concrete inputs). -/
def jpNone : String → Option Json := fun _ => none

/-- A pinning service whose calls all succeed with fixed hashes. -/
def svcOk : PinService :=
  { pinFileToIPFS := fun _ _ => .ok "QmImageHash"
    pinJSONToIPFS := fun _ _ => .ok "QmJsonHash" }

/-- A pinning service whose image pin fails. -/
def svcFileFails : PinService :=
  { pinFileToIPFS := fun _ _ => .error "upstream down"
    pinJSONToIPFS := fun _ _ => .ok "QmJsonHash" }

/-- A pinning service whose image pin succeeds and whose metadata pin
fails. -/
def svcJsonFails : PinService :=
  { pinFileToIPFS := fun _ _ => .ok "QmImageHash"
    pinJSONToIPFS := fun _ _ => .error "metadata upstream down" }

/-- Request with no file field. -/
def reqNoFile : PinImageRequest :=
  { file := none, metaName := some "x", metaDescription := none, properties := none }

/-- A small uploaded file. -/
def fileA : UploadedFile := { buffer := [1, 2, 3], originalname := some "a.png" }

/-- Request with a file, whitespace-only metaName, absent description and
an unparsable properties string. -/
def reqA : PinImageRequest :=
  { file := some fileA
    metaName := some "  "
    metaDescription := none
    properties := some "not json" }

/-! ### C2 -/

/-- Claim C2: a pin-image request whose multipart form has no file field
gets status 400 with body exactly the No-file-uploaded error object, and
the upstream call log is empty: neither pinFileToIPFS nor pinJSONToIPFS
is invoked. -/
theorem pinImage_noFile_400 (jsonParse : String → Option Json) (svc : PinService)
    (req : PinImageRequest) (h : req.file = none) :
    pinImageHandler jsonParse svc req =
      ({ status := 400, body := .errorBody "No file uploaded" }, []) := by
  simp [pinImageHandler, h]

/-- Witness for C2 at a concrete request with no file. -/
theorem pinImage_noFile_400_witness :
    pinImageHandler jpNone svcOk reqNoFile =
      ({ status := 400, body := .errorBody "No file uploaded" }, []) :=
  pinImage_noFile_400 jpNone svcOk reqNoFile rfl

/-! ### C3 -/

/-- Claim C3: the two upstream uploads are strictly sequential. If the
image pin fails, the request ends with a 500 response and the call log
holds only the image pin: the metadata document is never pinned and no
other upstream call (in particular no unpin) happens. If the image pin
succeeds and the metadata pin fails, the request ends with a 500
response and the call log is exactly the image pin followed by the
metadata pin: no unpin or rollback call is made. -/
theorem pinImage_sequential (jsonParse : String → Option Json) (svc : PinService)
    (req : PinImageRequest) (f : UploadedFile) (hf : req.file = some f) :
    (∀ e, svc.pinFileToIPFS f.buffer (imagePinName req f) = .error e →
      pinImageHandler jsonParse svc req =
        ({ status := 500, body := .errorBody (errorMessageOf e) },
          [.pinFile f.buffer (imagePinName req f)])) ∧
    (∀ imageHash e, svc.pinFileToIPFS f.buffer (imagePinName req f) = .ok imageHash →
      svc.pinJSONToIPFS (mkMetadata jsonParse req imageHash) (jsonPinName req) = .error e →
      pinImageHandler jsonParse svc req =
        ({ status := 500, body := .errorBody (errorMessageOf e) },
          [.pinFile f.buffer (imagePinName req f),
           .pinJSON (mkMetadata jsonParse req imageHash) (jsonPinName req)])) := by
  constructor
  · intro e he
    simp [pinImageHandler, pinImageUpload, hf, he]
  · intro imageHash e hok he
    simp [pinImageHandler, pinImageUpload, hf, hok, he]

/-- Witness for C3 at concrete inputs: both failure shapes evaluated. -/
theorem pinImage_sequential_witness :
    (∀ e, svcFileFails.pinFileToIPFS fileA.buffer (imagePinName reqA fileA) = .error e →
      pinImageHandler jpNone svcFileFails reqA =
        ({ status := 500, body := .errorBody (errorMessageOf e) },
          [.pinFile fileA.buffer (imagePinName reqA fileA)])) ∧
    (∀ imageHash e,
      svcFileFails.pinFileToIPFS fileA.buffer (imagePinName reqA fileA) = .ok imageHash →
      svcFileFails.pinJSONToIPFS (mkMetadata jpNone reqA imageHash) (jsonPinName reqA) = .error e →
      pinImageHandler jpNone svcFileFails reqA =
        ({ status := 500, body := .errorBody (errorMessageOf e) },
          [.pinFile fileA.buffer (imagePinName reqA fileA),
           .pinJSON (mkMetadata jpNone reqA imageHash) (jsonPinName reqA)])) :=
  pinImage_sequential jpNone svcFileFails reqA fileA rfl

/-! ### C7 -/

/-- Claim C7: the properties field is parsed leniently. When it is
absent, empty after trimming, or rejected by the JSON parser, the
metadata properties value is the empty object, and the request proceeds
exactly as if the field were absent: a malformed properties value never
changes the outcome, in particular it never fails the request. -/
theorem pinImage_lenient_properties (jsonParse : String → Option Json) (svc : PinService)
    (req : PinImageRequest)
    (h : req.properties = none ∨
      ∃ s, req.properties = some s ∧ (jsTrim s = "" ∨ jsonParse s = none)) :
    propertiesOf jsonParse req = Json.jobj [] ∧
    pinImageHandler jsonParse svc req =
      pinImageHandler jsonParse svc { req with properties := none } := by
  have hprops : propertiesOf jsonParse req = Json.jobj [] := by
    rcases h with h | ⟨s, hs, h⟩
    · simp [propertiesOf, safeJsonParse, h]
    · rcases h with h | h <;> simp [propertiesOf, safeJsonParse, hs, h]
  refine ⟨hprops, ?_⟩
  have hmeta : mkMetadata jsonParse req = mkMetadata jsonParse { req with properties := none } := by
    funext hsh
    unfold mkMetadata
    rw [hprops]
    rfl
  cases hf : req.file with
  | none => simp [pinImageHandler, hf]
  | some f =>
    have himg : imagePinName req f = imagePinName { req with properties := none } f := rfl
    have hjn : jsonPinName req = jsonPinName { req with properties := none } := rfl
    simp only [pinImageHandler, hf]
    rw [himg, hjn, hmeta]
    rfl

/-- Witness for C7 at a concrete request whose properties string the
parser rejects. -/
theorem pinImage_lenient_properties_witness :
    propertiesOf jpNone reqA = Json.jobj [] ∧
    pinImageHandler jpNone svcOk reqA =
      pinImageHandler jpNone svcOk { reqA with properties := none } :=
  pinImage_lenient_properties jpNone svcOk reqA (Or.inr ⟨"not json", rfl, Or.inr rfl⟩)

/-! ### C8 -/

/-- Claim C8: the stored metadata name and description are the trimmed
request fields when non-empty after trimming, and the fixed defaults
otherwise; a whitespace-only metaName yields exactly the default name.
The stored document is the one carried by the pinJSON upstream call,
which the call log exhibits whenever the image pin succeeded. -/
theorem pinImage_name_description_defaults (jsonParse : String → Option Json)
    (svc : PinService) (req : PinImageRequest) (f : UploadedFile) (imageHash : String)
    (hf : req.file = some f)
    (hok : svc.pinFileToIPFS f.buffer (imagePinName req f) = .ok imageHash) :
    ((pinImageHandler jsonParse svc req).2 =
      [.pinFile f.buffer (imagePinName req f),
       .pinJSON (mkMetadata jsonParse req imageHash) (jsonPinName req)]) ∧
    (mkMetadata jsonParse req imageHash).name =
      (if safeTrim req.metaName = "" then "NFT Example" else safeTrim req.metaName) ∧
    (mkMetadata jsonParse req imageHash).description =
      (if safeTrim req.metaDescription = "" then "This is an unchangeable NFT"
       else safeTrim req.metaDescription) ∧
    (req.metaName = some "  " → (mkMetadata jsonParse req imageHash).name = "NFT Example") := by
  refine ⟨?_, rfl, rfl, ?_⟩
  · simp only [pinImageHandler, pinImageUpload, hf, hok]
    cases svc.pinJSONToIPFS (mkMetadata jsonParse req imageHash) (jsonPinName req) <;> rfl
  · intro hws
    have ht : jsTrim "  " = "" := rfl
    simp [mkMetadata, metaNameOf, safeTrim, jsOr, hws, ht]

/-- Witness for C8 at the concrete whitespace-name request. -/
theorem pinImage_name_description_defaults_witness :
    ((pinImageHandler jpNone svcOk reqA).2 =
      [.pinFile fileA.buffer (imagePinName reqA fileA),
       .pinJSON (mkMetadata jpNone reqA "QmImageHash") (jsonPinName reqA)]) ∧
    (mkMetadata jpNone reqA "QmImageHash").name =
      (if safeTrim reqA.metaName = "" then "NFT Example" else safeTrim reqA.metaName) ∧
    (mkMetadata jpNone reqA "QmImageHash").description =
      (if safeTrim reqA.metaDescription = "" then "This is an unchangeable NFT"
       else safeTrim reqA.metaDescription) ∧
    (reqA.metaName = some "  " → (mkMetadata jpNone reqA "QmImageHash").name = "NFT Example") :=
  pinImage_name_description_defaults jpNone svcOk reqA fileA "QmImageHash" rfl rfl

/-! ### C9 -/

/-- Body of the health response. -/
structure HealthBody where
  ok : Bool
  ts : Nat

/-- Health response: status, headers and body. -/
structure HealthResponse where
  status : Nat
  headers : List (String × String)
  body : HealthBody

/-- GET /health handler: sets Cache-Control no-store and returns 200
with the ok flag and the current epoch-millisecond clock reading. -/
def healthHandler (now : Nat) : HealthResponse :=
  { status := 200
    headers := [("Cache-Control", "no-store")]
    body := { ok := true, ts := now } }

/-- Claim C9: every health request returns 200 with ok true, a ts equal
to the sampled epoch-millisecond clock, and the Cache-Control no-store
header; since ts is exactly the clock sample, across repeated calls the
ts values are non-decreasing whenever the clock readings are. -/
theorem health_endpoint_spec (now : Nat) :
    (healthHandler now).status = 200 ∧
    (healthHandler now).body.ok = true ∧
    (healthHandler now).body.ts = now ∧
    ("Cache-Control", "no-store") ∈ (healthHandler now).headers ∧
    (∀ t1 t2 : Nat, t1 ≤ t2 → (healthHandler t1).body.ts ≤ (healthHandler t2).body.ts) := by
  refine ⟨rfl, rfl, rfl, ?_, ?_⟩
  · simp [healthHandler]
  · intro t1 t2 h
    simpa [healthHandler] using h

/-- Witness for C9 at two concrete clock readings. -/
theorem health_endpoint_spec_witness :
    (healthHandler 1000).status = 200 ∧
    (healthHandler 1000).body.ts = 1000 ∧
    (healthHandler 1000).body.ts ≤ (healthHandler 2000).body.ts :=
  ⟨(health_endpoint_spec 1000).1, (health_endpoint_spec 1000).2.2.1,
    (health_endpoint_spec 1000).2.2.2.2 1000 2000 (by norm_num)⟩

/-! ## CORS origin decision (both server variants) -/

/-- Model of new URL(origin).hostname: the authority component after the
first scheme separator, cut at the first delimiter; none when parsing
fails (no scheme separator or empty host), matching the URL constructor
throwing. -/
def hostnameOf (origin : String) : Option (List Char) :=
  match splitFirstOn ("://".data) origin.data with
  | some (_, rest) =>
    let host := rest.takeWhile (fun c => !(c = '/' || c = ':' || c = '?' || c = '#'))
    if host.isEmpty then none else some host
  | none => none

/-- Does the declared origin sit on the public hosting subdomain, i.e.
does its parsed hostname end with .vercel.app (false when parsing fails)? -/
def onVercelApp (origin : String) : Bool :=
  match hostnameOf origin with
  | some host => endsWithL host (".vercel.app".data)
  | none => false

/-- CORS origin callback of the env-configured server variant
(part_000 lines 25-37): no declared origin is allowed; a configured
wildcard entry allows everything; then the explicit allow-list and the
.vercel.app hostname rule. -/
def corsOriginAllowedEnv (allowedOrigins : List String) (origin : Option String) : Bool :=
  match origin with
  | none => true
  | some o =>
    if allowedOrigins.contains "*" then true
    else if allowedOrigins.contains o then true
    else onVercelApp o

/-- CORS origin callback of the fixed-list server variant
(part_001 lines 33-48): no declared origin allowed, then the explicit
allow-list and the .vercel.app hostname rule; no wildcard handling. -/
def corsOriginAllowedFixed (allowedOrigins : List String) (origin : Option String) : Bool :=
  match origin with
  | none => true
  | some o =>
    if allowedOrigins.contains o then true
    else onVercelApp o

/-- The decision as the claim words it: no declared origin always
allowed; otherwise allowed exactly when the origin is in the explicit
allow-list or its hostname ends with .vercel.app. -/
def corsClaimDecision (allowedOrigins : List String) (origin : Option String) : Bool :=
  match origin with
  | none => true
  | some o => allowedOrigins.contains o || onVercelApp o

/-! ### C4 -/

/-- Claim C4, counterexample: in the env-configured server variant the
allow-list defaults to the single wildcard entry, and then every origin
is allowed — including one that is neither in the allow-list nor on
.vercel.app, which the claim says is rejected. -/
theorem cors_wildcard_cex :
    ¬ (∀ (allowedOrigins : List String) (origin : Option String),
        corsOriginAllowedEnv allowedOrigins origin =
          corsClaimDecision allowedOrigins origin) := by
  intro h
  have := h ["*"] (some "https://evil.example.com")
  have h1 : corsOriginAllowedEnv ["*"] (some "https://evil.example.com") = true := by decide
  have h2 : corsClaimDecision ["*"] (some "https://evil.example.com") = false := by decide
  rw [h1, h2] at this
  exact Bool.noConfusion this

/-- Claim C4, amended: the fixed-list server variant decides exactly as
the claim says; the env-configured variant does too whenever its
configured allow-list has no wildcard entry, while a wildcard entry
makes it allow every declared origin. A request with no declared origin
is always allowed in both variants. -/
theorem cors_decision_amended :
    (∀ (allowedOrigins : List String) (origin : Option String),
      corsOriginAllowedFixed allowedOrigins origin =
        corsClaimDecision allowedOrigins origin) ∧
    (∀ (allowedOrigins : List String) (origin : Option String),
      allowedOrigins.contains "*" = false →
      corsOriginAllowedEnv allowedOrigins origin =
        corsClaimDecision allowedOrigins origin) ∧
    (∀ (allowedOrigins : List String) (o : String),
      allowedOrigins.contains "*" = true →
      corsOriginAllowedEnv allowedOrigins (some o) = true) := by
  refine ⟨?_, ?_, ?_⟩
  · intro l origin
    cases origin with
    | none => rfl
    | some o =>
      by_cases hc : l.contains o = true <;>
        simp [corsOriginAllowedFixed, corsClaimDecision, hc]
  · intro l origin hw
    cases origin with
    | none => rfl
    | some o =>
      simp only [corsOriginAllowedEnv, corsClaimDecision, hw]
      by_cases hc : l.contains o = true <;> simp [hc]
  · intro l o hw
    simp only [corsOriginAllowedEnv, hw]
    simp

/-- Witness for the amended C4 theorem at concrete configurations: the
fixed list of the deployed frontend origin, a wildcard-free env list,
and a wildcard env list. -/
theorem cors_decision_amended_witness :
    (corsOriginAllowedFixed ["http://localhost:5173"] (some "https://fork.vercel.app") =
      corsClaimDecision ["http://localhost:5173"] (some "https://fork.vercel.app")) ∧
    (corsOriginAllowedEnv ["http://localhost:5173"] (some "https://fork.vercel.app") =
      corsClaimDecision ["http://localhost:5173"] (some "https://fork.vercel.app")) ∧
    (corsOriginAllowedEnv ["*"] (some "https://anything.example.org") = true) :=
  ⟨cors_decision_amended.1 ["http://localhost:5173"] (some "https://fork.vercel.app"),
    cors_decision_amended.2.1 ["http://localhost:5173"] (some "https://fork.vercel.app")
      (by decide),
    cors_decision_amended.2.2 ["*"] "https://anything.example.org" (by decide)⟩

/-! ## Amount formatting (web3authIntegration.ts, formatAmount / parseAmount)

The two functions are modelled on character lists; `formatAmount` and
`parseAmount` wrap them at the String level. -/

/-- Decimal numeral reading: foldl over most-significant-first digit
characters (the semantics of BigInt on an all-digit string). -/
def digitsToNat (l : List Char) : Nat :=
  l.foldl (fun a c => 10 * a + (c.toNat - 48)) 0

/-- Digit accumulator for the decimal rendering of a Nat (the semantics
of Number/BigInt toString), structurally recursive on a fuel bound so
that it reduces by computation; any fuel above the value is enough. -/
def toDecimalGo : Nat → Nat → List Char → List Char
  | 0, _, acc => acc
  | fuel + 1, n, acc =>
    if n = 0 then acc
    else toDecimalGo fuel (n / 10) (Char.ofNat (48 + n % 10) :: acc)

/-- Decimal rendering of a Nat, most significant digit first. -/
def toDecimal (n : Nat) : List Char :=
  if n = 0 then ['0'] else toDecimalGo (n + 1) n []

/-- JS String.prototype.padStart with a pad character. -/
def padStartL (l : List Char) (targetLength : Nat) (c : Char) : List Char :=
  List.replicate (targetLength - l.length) c ++ l

/-- JS String.prototype.padEnd with a pad character. -/
def padEndL (l : List Char) (targetLength : Nat) (c : Char) : List Char :=
  l ++ List.replicate (targetLength - l.length) c

/-- JS String.prototype.split on the dot character. -/
def splitOnDot : List Char → List (List Char)
  | [] => [[]]
  | c :: rest =>
    if c = '.' then [] :: splitOnDot rest
    else
      match splitOnDot rest with
      | [] => [[c]]
      | h :: t => (c :: h) :: t

/-- The unsigned-decimal-numeral test of parseAmount: one or more
digits, optionally followed by a dot and one or more digits. -/
def matchesAmountFormat (l : List Char) : Bool :=
  match splitOnDot l with
  | [a] => !a.isEmpty && a.all Char.isDigit
  | [a, b] => !a.isEmpty && a.all Char.isDigit && !b.isEmpty && b.all Char.isDigit
  | _ => false

/-- formatAmount on character lists: render the amount in decimal; when
it has no more digits than `decimals`, left-pad to the fractional width
under a leading zero; otherwise split the digit string `decimals` places
from the right. -/
def formatAmountL (amount : Nat) (decimals : Nat) : List Char :=
  let amountStr := toDecimal amount
  if amountStr.length ≤ decimals then
    '0' :: '.' :: padStartL amountStr decimals '0'
  else
    amountStr.take (amountStr.length - decimals) ++
      '.' :: amountStr.drop (amountStr.length - decimals)

/-- parseAmount on character lists: trim; reject blank input, input not
matching the unsigned decimal numeral shape, and more fractional digits
than `decimals`; otherwise right-pad the fractional part and read the
combined digit string. -/
def parseAmountL (l : List Char) (decimals : Nat) : Except String Nat :=
  let trimmed := trimL l
  if trimmed.isEmpty then .error "Amount is required"
  else if matchesAmountFormat trimmed = false then .error "Invalid amount format"
  else
    let parts := splitOnDot trimmed
    let integerPart := parts.headD ['0']
    let decimalPart := parts.getD 1 []
    if decimals < decimalPart.length then
      .error ("Too many decimal places (maximum " ++ toString decimals ++ ")")
    else
      .ok (digitsToNat (integerPart ++ padEndL decimalPart decimals '0'))

/-- formatAmount at the String level. -/
def formatAmount (amount : Nat) (decimals : Nat) : String :=
  String.mk (formatAmountL amount decimals)

/-- parseAmount at the String level. -/
def parseAmount (amount : String) (decimals : Nat) : Except String Nat :=
  parseAmountL amount.data decimals

/-! ### Decimal rendering lemmas -/

theorem ofNat_digit_isDigit (m : Nat) (hm : m < 10) :
    (Char.ofNat (48 + m)).isDigit = true := by
  interval_cases m <;> decide

theorem ofNat_digit_toNat (m : Nat) (hm : m < 10) :
    (Char.ofNat (48 + m)).toNat = 48 + m := by
  interval_cases m <;> decide

theorem digit_not_whitespace (c : Char) (h : c.isDigit = true) :
    c.isWhitespace = false := by
  by_contra hw
  have hw' : c.isWhitespace = true := by
    cases hws : c.isWhitespace
    · exact absurd hws hw
    · rfl
  have hcases : ((c = ' ' ∨ c = '\t') ∨ c = '\r') ∨ c = '\n' := by
    simpa [Char.isWhitespace] using hw'
  rcases hcases with ((rfl | rfl) | rfl) | rfl <;> exact absurd h (by decide)

theorem toDecimalGo_append (fuel : Nat) : ∀ (n : Nat) (acc : List Char),
    toDecimalGo fuel n acc = toDecimalGo fuel n [] ++ acc := by
  induction fuel with
  | zero => intro n acc; simp [toDecimalGo]
  | succ f ih =>
    intro n acc
    by_cases h : n = 0
    · simp [toDecimalGo, h]
    · simp only [toDecimalGo, if_neg h]
      rw [ih (n / 10) (Char.ofNat (48 + n % 10) :: acc),
        ih (n / 10) [Char.ofNat (48 + n % 10)]]
      simp

theorem toDecimalGo_digits (fuel : Nat) : ∀ (n : Nat) (acc : List Char),
    (∀ c ∈ acc, c.isDigit = true) →
    ∀ c ∈ toDecimalGo fuel n acc, c.isDigit = true := by
  induction fuel with
  | zero => intro n acc hacc; simpa [toDecimalGo] using hacc
  | succ f ih =>
    intro n acc hacc c hc
    by_cases h : n = 0
    · rw [toDecimalGo, if_pos h] at hc
      exact hacc c hc
    · rw [toDecimalGo, if_neg h] at hc
      refine ih (n / 10) _ ?_ c hc
      intro x hx
      rcases List.mem_cons.mp hx with rfl | hx
      · exact ofNat_digit_isDigit (n % 10) (Nat.mod_lt _ (by norm_num))
      · exact hacc x hx

theorem digitsToNat_toDecimalGo (n : Nat) : ∀ (fuel : Nat), n < fuel → ∀ a : Nat,
    List.foldl (fun a c => 10 * a + (c.toNat - 48)) a (toDecimalGo fuel n []) =
      a * 10 ^ (toDecimalGo fuel n []).length + n := by
  induction n using Nat.strong_induction_on with
  | _ n ih =>
    intro fuel hf a
    match fuel with
    | f + 1 =>
      by_cases h : n = 0
      · simp [toDecimalGo, h]
      · have hdiv : n / 10 < n := Nat.div_lt_self (Nat.pos_of_ne_zero h) (by norm_num)
        have hf2 : n / 10 < f := by omega
        simp only [toDecimalGo, if_neg h]
        rw [toDecimalGo_append, List.foldl_append, List.length_append,
          ih (n / 10) hdiv f hf2 a]
        simp only [List.foldl, List.length_cons, List.length_nil]
        rw [ofNat_digit_toNat (n % 10) (Nat.mod_lt _ (by norm_num))]
        have hmod : 48 + n % 10 - 48 = n % 10 := by omega
        rw [hmod]
        calc 10 * (a * 10 ^ (toDecimalGo f (n / 10) []).length + n / 10) + n % 10
            = a * (10 ^ (toDecimalGo f (n / 10) []).length * 10) +
                (10 * (n / 10) + n % 10) := by ring
          _ = a * 10 ^ ((toDecimalGo f (n / 10) []).length + (0 + 1)) + n := by
                rw [Nat.div_add_mod]
                norm_num [pow_succ]

theorem toDecimal_digits (n : Nat) : ∀ c ∈ toDecimal n, c.isDigit = true := by
  unfold toDecimal
  split
  · intro c hc
    have : c = '0' := by simpa using hc
    subst this
    decide
  · exact toDecimalGo_digits (n + 1) n [] (by simp)

theorem toDecimal_ne_nil (n : Nat) : toDecimal n ≠ [] := by
  unfold toDecimal
  split
  · simp
  · rename_i h
    rw [show toDecimalGo (n + 1) n [] =
        toDecimalGo n (n / 10) [] ++ [Char.ofNat (48 + n % 10)] from by
      rw [toDecimalGo, if_neg h, toDecimalGo_append]]
    simp

theorem digitsToNat_toDecimal (n : Nat) : digitsToNat (toDecimal n) = n := by
  unfold digitsToNat toDecimal
  split
  · rename_i h
    subst h
    decide
  · simpa using digitsToNat_toDecimalGo n (n + 1) (by omega) 0

/-! ### Trim, split and leading-zero lemmas -/

theorem dropWhile_eq_self_of_all {p : Char → Bool} :
    ∀ (l : List Char), (∀ c ∈ l, p c = false) → l.dropWhile p = l
  | [], _ => rfl
  | c :: rest, h => by
    have hc : p c = false := h c (List.mem_cons_self c rest)
    simp [List.dropWhile_cons, hc]

theorem trimL_eq_self (l : List Char) (h : ∀ c ∈ l, c.isWhitespace = false) :
    trimL l = l := by
  unfold trimL
  rw [dropWhile_eq_self_of_all l h,
    dropWhile_eq_self_of_all l.reverse (fun c hc => h c (List.mem_reverse.mp hc)),
    List.reverse_reverse]

theorem splitOnDot_no_dot : ∀ (l : List Char), '.' ∉ l → splitOnDot l = [l]
  | [], _ => rfl
  | c :: rest, h => by
    have hc : ¬ c = '.' := fun hh => h (hh ▸ List.mem_cons_self c rest)
    have hrest := splitOnDot_no_dot rest (fun hm => h (List.mem_cons_of_mem c hm))
    simp [splitOnDot, hc, hrest]

theorem splitOnDot_append (a b : List Char) (ha : '.' ∉ a) :
    splitOnDot (a ++ '.' :: b) = a :: splitOnDot b := by
  induction a with
  | nil => simp [splitOnDot]
  | cons c a ih =>
    have hc : ¬ c = '.' := fun hh => ha (hh ▸ List.mem_cons_self c a)
    have ih' := ih (fun hm => ha (List.mem_cons_of_mem c hm))
    simp [splitOnDot, hc, ih']

theorem foldl_replicate_zero (k : Nat) :
    List.foldl (fun a c => 10 * a + (c.toNat - 48)) 0 (List.replicate k '0') = 0 := by
  induction k with
  | zero => rfl
  | succ k ih =>
    rw [List.replicate_succ]
    simpa using ih

theorem digitsToNat_replicate_append (k : Nat) (l : List Char) :
    digitsToNat (List.replicate k '0' ++ l) = digitsToNat l := by
  unfold digitsToNat
  rw [List.foldl_append, foldl_replicate_zero]

/-! ### parseAmount on digit strings with one dot -/

theorem isEmpty_false_of_ne_nil {l : List Char} (h : l ≠ []) : l.isEmpty = false := by
  cases l with
  | nil => exact absurd rfl h
  | cons c rest => rfl

theorem trim_split_format (a b : List Char) (ha : a ≠ []) (hb : b ≠ [])
    (had : ∀ c ∈ a, c.isDigit = true) (hbd : ∀ c ∈ b, c.isDigit = true) :
    trimL (a ++ '.' :: b) = a ++ '.' :: b ∧
    splitOnDot (a ++ '.' :: b) = [a, b] ∧
    matchesAmountFormat (a ++ '.' :: b) = true := by
  have hadot : '.' ∉ a := fun hm => by
    have := had '.' hm
    exact absurd this (by decide)
  have hbdot : '.' ∉ b := fun hm => by
    have := hbd '.' hm
    exact absurd this (by decide)
  have hsplit : splitOnDot (a ++ '.' :: b) = [a, b] := by
    rw [splitOnDot_append a b hadot, splitOnDot_no_dot b hbdot]
  refine ⟨?_, hsplit, ?_⟩
  · refine trimL_eq_self _ ?_
    intro c hc
    rcases List.mem_append.mp hc with hc | hc
    · exact digit_not_whitespace c (had c hc)
    · rcases List.mem_cons.mp hc with rfl | hc
      · decide
      · exact digit_not_whitespace c (hbd c hc)
  · unfold matchesAmountFormat
    rw [hsplit]
    simp only [isEmpty_false_of_ne_nil ha, isEmpty_false_of_ne_nil hb,
      Bool.not_false, Bool.true_and, Bool.and_true, Bool.and_eq_true,
      List.all_eq_true]
    exact ⟨had, hbd⟩

theorem parseAmountL_two_parts (a b : List Char) (d : Nat)
    (ha : a ≠ []) (hb : b ≠ [])
    (had : ∀ c ∈ a, c.isDigit = true) (hbd : ∀ c ∈ b, c.isDigit = true)
    (hlen : b.length ≤ d) :
    parseAmountL (a ++ '.' :: b) d = .ok (digitsToNat (a ++ padEndL b d '0')) := by
  obtain ⟨htrim, hsplit, hfmt⟩ := trim_split_format a b ha hb had hbd
  simp only [parseAmountL, htrim, hsplit, hfmt]
  have hne : (a ++ '.' :: b).isEmpty = false :=
    isEmpty_false_of_ne_nil (by simp)
  rw [hne]
  simp [Nat.not_lt.mpr hlen]

theorem parseAmountL_too_many (a b : List Char) (d : Nat)
    (ha : a ≠ []) (hb : b ≠ [])
    (had : ∀ c ∈ a, c.isDigit = true) (hbd : ∀ c ∈ b, c.isDigit = true)
    (hlen : d < b.length) :
    parseAmountL (a ++ '.' :: b) d =
      .error ("Too many decimal places (maximum " ++ toString d ++ ")") := by
  obtain ⟨htrim, hsplit, hfmt⟩ := trim_split_format a b ha hb had hbd
  simp only [parseAmountL, htrim, hsplit, hfmt]
  have hne : (a ++ '.' :: b).isEmpty = false :=
    isEmpty_false_of_ne_nil (by simp)
  rw [hne]
  simp [hlen]

theorem parseAmountL_blank (l : List Char) (d : Nat) (h : trimL l = []) :
    parseAmountL l d = .error "Amount is required" := by
  simp [parseAmountL, h]

theorem parseAmountL_invalid (l : List Char) (d : Nat) (h1 : trimL l ≠ [])
    (h2 : matchesAmountFormat (trimL l) = false) :
    parseAmountL l d = .error "Invalid amount format" := by
  simp [parseAmountL, isEmpty_false_of_ne_nil h1, h2]

theorem parse_format_roundtrip (n d : Nat) (hd : 1 ≤ d) :
    parseAmountL (formatAmountL n d) d = .ok n := by
  have hs_digits := toDecimal_digits n
  have hs_ne := toDecimal_ne_nil n
  by_cases hlen : (toDecimal n).length ≤ d
  · have hfmt : formatAmountL n d = ['0'] ++ '.' :: padStartL (toDecimal n) d '0' := by
      simp [formatAmountL, hlen]
    have hpad_digits : ∀ c ∈ padStartL (toDecimal n) d '0', c.isDigit = true := by
      intro c hc
      rw [padStartL] at hc
      rcases List.mem_append.mp hc with hc | hc
      · rw [List.eq_of_mem_replicate hc]; decide
      · exact hs_digits c hc
    have hpad_len : (padStartL (toDecimal n) d '0').length = d := by
      simp only [padStartL, List.length_append, List.length_replicate]
      omega
    have hpad_ne : padStartL (toDecimal n) d '0' ≠ [] := by
      intro hnil
      rw [hnil] at hpad_len
      simp at hpad_len
      omega
    have h0d : ∀ c ∈ (['0'] : List Char), c.isDigit = true := by
      intro c hc
      rw [List.mem_singleton.mp hc]
      decide
    rw [hfmt, parseAmountL_two_parts ['0'] (padStartL (toDecimal n) d '0') d
      (by simp) hpad_ne h0d hpad_digits (le_of_eq hpad_len)]
    have hpe : padEndL (padStartL (toDecimal n) d '0') d '0' =
        padStartL (toDecimal n) d '0' := by
      rw [padEndL, hpad_len]
      simp
    rw [hpe]
    have hrepl : (['0'] ++ padStartL (toDecimal n) d '0') =
        List.replicate ((d - (toDecimal n).length) + 1) '0' ++ toDecimal n := by
      rw [padStartL, List.replicate_succ]
      rfl
    rw [hrepl, digitsToNat_replicate_append, digitsToNat_toDecimal]
  · push_neg at hlen
    have hfmt : formatAmountL n d =
        (toDecimal n).take ((toDecimal n).length - d) ++
          '.' :: (toDecimal n).drop ((toDecimal n).length - d) := by
      simp [formatAmountL, Nat.not_le.mpr hlen]
    have ha_len : ((toDecimal n).take ((toDecimal n).length - d)).length =
        (toDecimal n).length - d := by
      rw [List.length_take]
      omega
    have ha_ne : (toDecimal n).take ((toDecimal n).length - d) ≠ [] := by
      intro hnil
      rw [hnil] at ha_len
      simp at ha_len
      omega
    have hb_len : ((toDecimal n).drop ((toDecimal n).length - d)).length = d := by
      rw [List.length_drop]
      omega
    have hb_ne : (toDecimal n).drop ((toDecimal n).length - d) ≠ [] := by
      intro hnil
      rw [hnil] at hb_len
      simp at hb_len
      omega
    have had : ∀ c ∈ (toDecimal n).take ((toDecimal n).length - d), c.isDigit = true :=
      fun c hc => hs_digits c (List.take_subset _ _ hc)
    have hbd : ∀ c ∈ (toDecimal n).drop ((toDecimal n).length - d), c.isDigit = true :=
      fun c hc => hs_digits c (List.drop_subset _ _ hc)
    rw [hfmt, parseAmountL_two_parts _ _ d ha_ne hb_ne had hbd (le_of_eq hb_len)]
    have hpe : padEndL ((toDecimal n).drop ((toDecimal n).length - d)) d '0' =
        (toDecimal n).drop ((toDecimal n).length - d) := by
      rw [padEndL, hb_len]
      simp
    rw [hpe, List.take_append_drop, digitsToNat_toDecimal]

/-! ### C10 -/

/-- Claim C10: parseAmount is a left inverse of formatAmount: for every
non-negative integer amount and positive decimals, parsing the formatted
string recovers the amount; and parseAmount rejects blank input, input
not matching an unsigned decimal numeral, and input with more fractional
digits than `decimals`. -/
theorem parseAmount_leftInverse_formatAmount :
    (∀ n d : Nat, 1 ≤ d → parseAmount (formatAmount n d) d = .ok n) ∧
    (∀ (s : String) (d : Nat), trimL s.data = [] →
      parseAmount s d = .error "Amount is required") ∧
    (∀ (s : String) (d : Nat), trimL s.data ≠ [] →
      matchesAmountFormat (trimL s.data) = false →
      parseAmount s d = .error "Invalid amount format") ∧
    (∀ (a b : List Char) (d : Nat), a ≠ [] → b ≠ [] →
      (∀ c ∈ a, c.isDigit = true) → (∀ c ∈ b, c.isDigit = true) → d < b.length →
      parseAmount (String.mk (a ++ '.' :: b)) d =
        .error ("Too many decimal places (maximum " ++ toString d ++ ")")) :=
  ⟨fun n d hd => parse_format_roundtrip n d hd,
    fun s d h => parseAmountL_blank s.data d h,
    fun s d h1 h2 => parseAmountL_invalid s.data d h1 h2,
    fun a b d ha hb had hbd hlen => parseAmountL_too_many a b d ha hb had hbd hlen⟩

/-- Witness for C10 at concrete inputs: a seven-digit amount with six
decimals round-trips, and each rejection case fires. -/
theorem parseAmount_leftInverse_formatAmount_witness :
    parseAmount (formatAmount 1234567 6) 6 = .ok 1234567 ∧
    parseAmount "" 6 = .error "Amount is required" ∧
    parseAmount "1.2.3" 6 = .error "Invalid amount format" ∧
    parseAmount (String.mk (['1'] ++ '.' :: ['2', '3', '4'])) 2 =
      .error ("Too many decimal places (maximum " ++ toString 2 ++ ")") :=
  ⟨parseAmount_leftInverse_formatAmount.1 1234567 6 (by norm_num),
    parseAmount_leftInverse_formatAmount.2.1 "" 6 rfl,
    parseAmount_leftInverse_formatAmount.2.2.1 "1.2.3" 6 (by decide) (by decide),
    parseAmount_leftInverse_formatAmount.2.2.2 ['1'] ['2', '3', '4'] 2
      (by decide) (by decide) (by decide) (by decide) (by decide)⟩

end RWA
